import Mathlib

/-!
Verification development for the `medicare_utils` cohort/claim extraction
library (`medicare_df.py`).  Each section shallowly embeds the part of the
source the corresponding claims are about; pandas frames are modelled by
their row sets (`Finset`) or by lists of records, machine floats by `ℚ`,
and Python exceptions by `Except`.
-/

namespace MedicareUtils

/-! ## Constructor validation (`MedicareDF.__init__`, lines 112-176)

`percent` is accepted when it is an exact `float`/`int` key of `pct_dict`
(`type(percent) in (float, int)` is an exact type test, so a Python `bool`
falls through to the `TypeError` branch even though `bool` subclasses
`int`), or one of the allowed strings.  `years` may be an int or a
list/range of ints; a `bool` is rejected explicitly before the
`type(years) == int` test.  With `year_type == 'age'`, a single year or a
non-contiguous year list raises `ValueError`; an empty list reaches
`min(years)`, which raises `ValueError` in Python as well. -/

/-- Argument passed as `percent`: the constructor dispatches on the exact
Python runtime type, so `bool` is its own constructor. -/
inductive PercentArg where
  | num (q : ℚ)
  | str (s : String)
  | bool (b : Bool)
  | other
deriving DecidableEq

/-- Argument passed as `years`. -/
inductive YearsArg where
  | bool (b : Bool)
  | int (n : Int)
  | list (l : List Int)
  | other
deriving DecidableEq, Repr

/-- Python exception raised during validation. -/
inductive PyErr where
  | typeError (msg : String)
  | valueError (msg : String)
deriving DecidableEq, Repr

/-- Resolved constructor state (`self.percent`, `self.years`,
`self.year_type`). -/
structure InitState where
  percent : String
  years : List Int
  yearType : String
deriving DecidableEq, Repr

/-- `pct_dict` lookup for numeric `percent` (keys `0.01, 1, 5, 20, 100`;
Python dict lookup compares `int` and `float` by numeric equality). -/
def pctLookup (q : ℚ) : Option String :=
  if q = 1 / 100 then some "0001"
  else if q = 1 then some "01"
  else if q = 5 then some "05"
  else if q = 20 then some "20"
  else if q = 100 then some "100"
  else none

/-- `allowed_pcts` (line 21). -/
def allowedPcts : List String := ["0001", "01", "05", "20", "100"]

/-- `list(range(a, b + 1))` for integers. -/
def intRange (a b : Int) : List Int :=
  (List.range (b - a + 1).toNat).map (fun i => a + (i : Int))

/-- `min(years)` on a nonempty list (defaults to 0 on `[]`, a case the
embedding routes to an error before use). -/
def listMin : List Int → Int
  | [] => 0
  | x :: xs => xs.foldl min x

/-- `max(years)` on a nonempty list. -/
def listMax : List Int → Int
  | [] => 0
  | x :: xs => xs.foldl max x

/-- `MedicareDF.__init__` argument validation (lines 126-163): the
`percent` checks run first, then the `years` checks, then the `age`
year-type checks.  No data is read anywhere in `__init__`. -/
def medicareDFInit (percent : PercentArg) (years : YearsArg)
    (yearType : String) : Except PyErr InitState :=
  match percent with
  | .bool _ => .error (.typeError "percent must be str or number")
  | .other => .error (.typeError "percent must be str or number")
  | .num q =>
    match pctLookup q with
    | none => .error (.valueError "percent provided is not valid")
    | some p => medicareDFInitYears p years yearType
  | .str s =>
    if allowedPcts.contains s then medicareDFInitYears s years yearType
    else .error (.valueError "percent must be one of the allowed strings")
where
  medicareDFInitYears (p : String) (years : YearsArg) (yearType : String) :
      Except PyErr InitState :=
    match years with
    | .bool _ => .error (.typeError "years must be a number or list of numbers")
    | .other => .error (.typeError "years must be a number or list of numbers")
    | .int n => medicareDFInitAge p [n] yearType
    | .list l => medicareDFInitAge p l yearType
  medicareDFInitAge (p : String) (l : List Int) (yearType : String) :
      Except PyErr InitState :=
    if yearType = "age" then
      if l.length = 1 then
        .error (.valueError "year_type cannot be age when only one year is given")
      else
        match l with
        | [] => .error (.valueError "min arg is an empty sequence")
        | _ :: _ =>
          if l = intRange (listMin l) (listMax l) then
            .ok ⟨p, l, yearType⟩
          else
            .error (.valueError "when year_type is age, years provided must be continuous")
    else .ok ⟨p, l, yearType⟩

/-- `True` iff construction succeeded. -/
def initOk (r : Except PyErr InitState) : Bool :=
  match r with
  | .ok _ => true
  | .error _ => false

/-! ## Per-year demographic filtering (`_get_cohort_extract_each_year`,
lines 414-560, and `_get_cohort_month_filter`, lines 562-615)

A year of the beneficiary file is a list of patient rows.  The calendar
stages `gender`, `age`, `race`, `buyin_val`, `hmo_val` each filter rows
and append `1 - len(pl) / nobs` to `nobs_dropped[year]` (the non-dask
path).  The `sex` comparison is modelled in the string-dtype branch of
the source dispatch.  In age mode the enrollment filters are delegated to
`_get_cohort_month_filter`, which filters rows but records nothing (the
source carries a TODO to add drop accounting there). -/

/-- One row of the `bsfab` patient file; the monthly `buyinXX` /
`hmoindXX` families are indexed by month number 1..12. -/
structure Patient where
  sex : String
  age : Int
  race : String
  buyin : Nat → String
  hmoind : Nat → String
  dobMonth : Nat

/-- Time-frame mode (`self.year_type`, validated to one of the two). -/
inductive YearType where
  | calendar
  | age
deriving DecidableEq

/-- Filter parameters of `get_cohort` after type checking (`None` means
no restriction; for the enrollment families the type check leaves lists
or `None`). -/
structure CohortParams where
  gender : Option String
  ages : Option (List Int)
  races : Option (List String)
  buyinVal : Option (List String)
  hmoVal : Option (List String)

/-- Python truthiness of an optional list (`if buyin_val:`): `None` and
`[]` are falsy. -/
def truthy : Option (List String) → Bool
  | none => false
  | some [] => false
  | some (_ :: _) => true

/-- Running state of the per-year extraction: current rows, current
`nobs`, drop fractions recorded so far (in recording order). -/
structure ExtractState where
  pl : List Patient
  nobs : ℚ
  drops : List (String × ℚ)

/-- One recorded filter stage: filter the rows, append
`1 - len(pl) / nobs`, update `nobs` (lines 478-530 repeat this block per
stage). -/
def applyStage (name : String) (pred : Patient → Bool)
    (s : ExtractState) : ExtractState :=
  let pl2 := s.pl.filter pred
  { pl := pl2
    nobs := (pl2.length : ℚ)
    drops := s.drops ++ [(name, 1 - (pl2.length : ℚ) / s.nobs)] }

/-- All twelve monthly values of family `f` lie in `values`
(`(pl[cols].isin(values)).all(axis=1)` over `buyin01..buyin12`). -/
def monthsAllIn (f : Patient → Nat → String) (values : List String)
    (p : Patient) : Bool :=
  (List.range' 1 12).all (fun m => values.contains (f p m))

/-- `_get_cohort_month_filter` age-mode row filter for one family: the
masking loop over the twelve candidate birth months leaves
`{var}_younger` true iff months `1..dob_month` are all allowed and
`{var}_older` true iff months `dob_month..12` are all allowed; the first
(minimum) year keeps `older` rows, the last keeps `younger`, interior
years keep either.  No drop fraction is recorded. -/
def monthFilter (f : Patient → Nat → String) (values : Option (List String))
    (isMinYear isMaxYear : Bool) (pl : List Patient) : List Patient :=
  match values with
  | none => pl
  | some vs =>
    let younger := fun p =>
      (List.range' 1 12).any (fun m =>
        p.dobMonth == m && (List.range' 1 m).all (fun k => vs.contains (f p k)))
    let older := fun p =>
      (List.range' 1 12).any (fun m =>
        p.dobMonth == m && (List.range' m (13 - m)).all (fun k => vs.contains (f p k)))
    if isMinYear then pl.filter older
    else if isMaxYear then pl.filter younger
    else pl.filter (fun p => younger p || older p)

/-- Row filtering and drop accounting of `_get_cohort_extract_each_year`
for one year (non-dask path; the column bookkeeping, suffix renaming and
match-flag creation are modelled separately). -/
def extractEachYear (yt : YearType) (isMinYear isMaxYear : Bool)
    (P : CohortParams) (pl : List Patient) : ExtractState :=
  let s0 : ExtractState := ⟨pl, (pl.length : ℚ), []⟩
  let s1 := match P.gender with
    | none => s0
    | some g => applyStage "gender" (fun p => p.sex == g) s0
  let s2 := match P.ages with
    | none => s1
    | some as => applyStage "age" (fun p => as.contains p.age) s1
  let s3 := match P.races with
    | none => s2
    | some rs => applyStage "race" (fun p => rs.contains p.race) s2
  if truthy P.buyinVal || truthy P.hmoVal then
    match yt with
    | .calendar =>
      let s4 := if truthy P.buyinVal then
          applyStage "buyin_val"
            (fun p => monthsAllIn Patient.buyin (P.buyinVal.getD []) p) s3
        else s3
      if truthy P.hmoVal then
        applyStage "hmo_val"
          (fun p => monthsAllIn Patient.hmoind (P.hmoVal.getD []) p) s4
      else s4
    | .age =>
      let plA := monthFilter Patient.buyin P.buyinVal isMinYear isMaxYear s3.pl
      let plB := monthFilter Patient.hmoind P.hmoVal isMinYear isMaxYear plA
      { pl := plB, nobs := s3.nobs, drops := s3.drops }
  else s3

/-- The calendar-mode stage list in application order; a stage appears
iff its parameter is applied (spec 4.3: gender, age, race, then the two
enrollment families). -/
def calStages (P : CohortParams) : List (String × (Patient → Bool)) :=
  (match P.gender with
    | none => []
    | some g => [("gender", fun p => p.sex == g)]) ++
  (match P.ages with
    | none => []
    | some as => [("age", fun p => as.contains p.age)]) ++
  (match P.races with
    | none => []
    | some rs => [("race", fun p => rs.contains p.race)]) ++
  (if truthy P.buyinVal then
    [("buyin_val", fun p => monthsAllIn Patient.buyin (P.buyinVal.getD []) p)]
  else []) ++
  (if truthy P.hmoVal then
    [("hmo_val", fun p => monthsAllIn Patient.hmoind (P.hmoVal.getD []) p)]
  else [])

/-- The demographic-only stage list (gender, age, race): the stages that
record drops in age mode as well. -/
def demoStages (P : CohortParams) : List (String × (Patient → Bool)) :=
  (match P.gender with
    | none => []
    | some g => [("gender", fun p => p.sex == g)]) ++
  (match P.ages with
    | none => []
    | some as => [("age", fun p => as.contains p.age)]) ++
  (match P.races with
    | none => []
    | some rs => [("race", fun p => rs.contains p.race)])

/-- Modelled from the spec: the drop-accounting recurrence of spec 4.3 /
8 — stage `k` records `1 - rows_after_k / rows_after_(k-1)`, where the
denominator is the post-previous-stage row count. -/
def specDrops : List (String × (Patient → Bool)) → List Patient →
    List (String × ℚ)
  | [], _ => []
  | (name, pred) :: rest, pl =>
    let pl2 := pl.filter pred
    (name, 1 - (pl2.length : ℚ) / (pl.length : ℚ)) :: specDrops rest pl2

/-- Rows surviving a stage list applied in sequence. -/
def runStages : List (String × (Patient → Bool)) → List Patient → List Patient
  | [], pl => pl
  | (_, pred) :: rest, pl => runStages rest (pl.filter pred)

/-- Row counts before/after each stage (length = stages + 1; head is the
initial count, last the final count). -/
def stageCounts : List (String × (Patient → Bool)) → List Patient → List ℕ
  | [], pl => [pl.length]
  | (_, pred) :: rest, pl => pl.length :: stageCounts rest (pl.filter pred)

/-! ## Year merging (`get_cohort`, lines 866-932 of `medicare_df.py`)

Each year's extracted frame is identified with its index set (a `Finset`
of patient ids; `bene_id` is unique within a year, so pandas joins on the
index act set-wise on rows).  In calendar mode the code merges the
per-year frames with the requested pandas join directly:
`dfs[0].join(dfs[1:], how=join)` for `inner`/`outer`/`left`, and
`dfs[-1].join(dfs[:-1], how='left')` for `right`. -/

/-- `join` argument of `get_cohort` (validated against
`['left', 'right', 'inner', 'outer']`). -/
inductive JoinMode where
  | inner
  | outer
  | left
  | right
deriving DecidableEq

/-- Index set of `first.join(others, how=...)` for frames with unique
indexes: `inner` intersects, `outer` unites, `left` keeps the caller's
index. -/
def pandasJoinIndex (first : Finset ℕ) (others : List (Finset ℕ)) :
    JoinMode → Finset ℕ
  | .inner => others.foldl (· ∩ ·) first
  | .outer => others.foldl (· ∪ ·) first
  | .left => first
  | .right => first

/-- Row set of the calendar-mode multi-year merge (lines 868-896): a
single frame passes through; `right` left-joins the remaining years onto
the last year's frame; the other modes join the remaining years onto the
first year's frame with the requested mode. -/
def sourceMergeCalendar (dfs : List (Finset ℕ)) (join : JoinMode) : Finset ℕ :=
  match dfs with
  | [] => ∅
  | d :: rest =>
    match join with
    | .right => pandasJoinIndex (dfs.getLastD ∅) (dfs.dropLast) .left
    | .inner => pandasJoinIndex d rest .inner
    | .outer => pandasJoinIndex d rest .outer
    | .left => pandasJoinIndex d rest .left

/-- Union of all per-year row sets. -/
def unionAll (dfs : List (Finset ℕ)) : Finset ℕ := dfs.foldl (· ∪ ·) ∅

/-- Modelled from the spec: the algorithm of spec 4.5 — first a
value-preserving outer union join across all years (every patient seen
in any year appears), then the requested join applied as a row filter
over the per-year match indicators, where patient `p` has a true
indicator for a year iff `p` is in that year's row set (created `True`
there, missing elsewhere, filled `False`). -/
def joinRowKeep (dfs : List (Finset ℕ)) (join : JoinMode) (p : ℕ) : Bool :=
  match join with
  | .inner => dfs.all (fun S => decide (p ∈ S))
  | .outer => dfs.any (fun S => decide (p ∈ S))
  | .left => decide (p ∈ dfs.headD ∅)
  | .right => decide (p ∈ dfs.getLastD ∅)

/-- The outer-union-then-filter merge itself. -/
def specMergeCalendar (dfs : List (Finset ℕ)) (join : JoinMode) : Finset ℕ :=
  (unionAll dfs).filter (fun p => joinRowKeep dfs join p = true)

/-! ## Output columns of calendar-mode `get_cohort` (lines 551-558,
898-902, 956-963)

Per-year frames carry the user-kept stub columns plus, when `join` is not
`'inner'`, a `match_{year}` indicator created `True` for every surviving
row.  After the merge the `match_*` columns have their missing values
filled with `False`, the wide `stub_{year}` columns are reshaped long, and
the `match` stub is renamed `cohort_match`. -/

/-- Stub columns of one year's extracted frame in calendar mode: the kept
data stubs, plus `match` unless the join is `inner` (line 557). -/
def perYearStubs (join : JoinMode) (keepStubs : List String) : List String :=
  keepStubs ++ (if join = .inner then [] else ["match"])

/-- Columns of the reshaped long output: the per-year stubs with `match`
renamed to `cohort_match` (line 963). -/
def finalLongCols (join : JoinMode) (keepStubs : List String) : List String :=
  (perYearStubs join keepStubs).map
    (fun c => if c = "match" then "cohort_match" else c)

/-- Cell of the merged `match_{year i}` column before filling: `True`
where the patient's row survived year `i`, missing otherwise. -/
def mergedMatchCell (dfs : List (Finset ℕ)) (i : ℕ) (p : ℕ) : Option Bool :=
  if p ∈ dfs.getD i ∅ then some true else none

/-- Cell after `pl[cols].fillna(False)` (lines 900-902). -/
def filledMatchCell (dfs : List (Finset ℕ)) (i : ℕ) (p : ℕ) : Bool :=
  (mergedMatchCell dfs i p).getD false

/-! ## Code specifications and the code matcher
(`_get_pattern` lines 985-996, `_search_for_codes_df_inner` lines
1687-1808)

A code specification is a literal string or a compiled pattern; its
canonical label is the literal text or the pattern source
(`_get_pattern`).  A compiled regex is shallowly embedded by its source
text, with `str.contains` modelled as substring search of that text (the
row-wise semantics of matching is all the collapse invariant depends
on). -/

/-- Tagged code specification (`str` vs `re._pattern_type`). -/
inductive CodeSpec where
  | lit (s : String)
  | pat (source : String)
deriving DecidableEq, Repr

/-- `_get_pattern`: canonical label of a specification. -/
def CodeSpec.patternOf : CodeSpec → String
  | .lit s => s
  | .pat p => p

/-- Substring containment (embedding of `Series.str.contains` for a
pattern whose source is literal text). -/
def strContainsSub (hay pat : String) : Bool :=
  (List.range (hay.toList.length + 1)).any
    (fun i => (hay.toList.drop i).take pat.toList.length == pat.toList)

/-- Cell-level match: a literal compares by equality
(`cl[cols[key]] == code`), a pattern by containment
(`col.str.contains(code)`). -/
def cellMatches (c : CodeSpec) (cell : String) : Bool :=
  match c with
  | .lit s => cell == s
  | .pat p => strContainsSub cell p

/-- The three code families, in the iteration order of the `codes` dict
(`{'hcpcs': ..., 'icd9_dx': ..., 'icd9_sg': ...}`). -/
inductive Fam where
  | hcpcs
  | dx
  | sg
deriving DecidableEq, Repr

/-- Family iteration order of `for key, val in codes.items()`. -/
def famOrder : List Fam := [.hcpcs, .dx, .sg]

/-- One claim row together with the resolved inputs of
`_search_for_codes_df_inner`: codes to search per family, resolved
columns per family, and the row's cell contents by column name. -/
structure MatchInput where
  codes : Fam → List CodeSpec
  cols : Fam → List String
  cell : String → String

/-- Row-wise any-column match of one code against one family
(`.any(axis=1)` over `cl[cols[key]]`). -/
def rowCodeMatch (inp : MatchInput) (f : Fam) (c : CodeSpec) : Bool :=
  (inp.cols f).any (fun col => cellMatches c (inp.cell col))

/-- `collapse_codes=True` path (lines 1763-1781): `match` starts `False`
and each code of each family with a nonempty column set ORs its row
match into it (`cl.loc[mask, 'match'] = True`; families with
`cols[key] == []` are skipped by the `continue`). -/
def matchCollapse (inp : MatchInput) : Bool :=
  famOrder.foldl
    (fun b f =>
      if inp.cols f = [] then b
      else (inp.codes f).foldl (fun b c => b || rowCodeMatch inp f c) b)
    false

/-- `collapse_codes=False` path (lines 1782-1798): the per-code boolean
columns actually created, in creation order (one per code of each family
with a nonempty column set). -/
def createdCodeCols (inp : MatchInput) : List Bool :=
  famOrder.flatMap
    (fun f =>
      if inp.cols f = [] then []
      else (inp.codes f).map (fun c => rowCodeMatch inp f c))

/-- The derived `match` column of the non-collapsed path:
`(cl[all_created_cols] == True).any(axis=1)`. -/
def matchNonCollapse (inp : MatchInput) : Bool :=
  (createdCodeCols inp).any id

/-! ## Rename-map and code-uniqueness validation
(`_search_for_codes_type_check` lines 1238-1267, `_create_rename_dict`
lines 1057-1101, `_create_rename_dict_each` lines 998-1055)

All of these run before the per-year data loop of `search_for_codes`
(the first data read happens in `_search_for_codes_single_year`). -/

/-- Error raised by the search validation. -/
inductive SearchErr where
  | valueError (msg : String)
  | assertionError (msg : String)
  | typeError (msg : String)
deriving DecidableEq, Repr

/-- A family's entry in the `rename` argument. -/
inductive RenameVal where
  | rnone
  | rstr (s : String)
  | rlist (l : List String)
  | rdict (d : List (String × String))
deriving DecidableEq, Repr

/-- `len(keys) == len(set(keys))`: the list has no duplicates. -/
def uniqueLen (l : List String) : Bool :=
  l.length == l.eraseDups.length

/-- `_create_rename_dict_each` for one family.  The `str` branch asserts
a single code and then calls `_get_pattern` on the code *list* (line
1029), which raises `TypeError`; the `dict` branch asserts its keys are a
subset of the family's canonical labels; the `list` branch asserts equal
lengths and zips. -/
def createRenameDictEach (codes : List CodeSpec) (r : RenameVal) :
    Except SearchErr (List (String × String)) :=
  match r with
  | .rnone => .ok []
  | .rstr s =>
    if s = "" then .ok []
    else if codes.length = 1 then
      .error (.typeError "Provided non string or regex to get_pattern")
    else .error (.assertionError "rename str requires exactly one code")
  | .rdict d =>
    if (d.map Prod.fst).all
        (fun k => (codes.map CodeSpec.patternOf).contains k) then
      .ok d
    else
      .error (.assertionError
        "Keys of the inner rename dict need to be a subset of the codes provided to search through")
  | .rlist l =>
    if codes.length = l.length then
      .ok ((codes.map CodeSpec.patternOf).zip l)
    else
      .error (.assertionError
        "If the values of the rename dictionary are lists, they need to match the length of the list of codes provided")

/-- `_create_rename_dict`: run the per-family builders in dict order
(the first raised assertion aborts), then assert key and value uniqueness
across families. -/
def createRenameDict (codes : Fam → List CodeSpec)
    (rename : Fam → RenameVal) : Except SearchErr (List (String × String)) :=
  match createRenameDictEach (codes .hcpcs) (rename .hcpcs) with
  | .error e => .error e
  | .ok d1 =>
    match createRenameDictEach (codes .dx) (rename .dx) with
    | .error e => .error e
    | .ok d2 =>
      match createRenameDictEach (codes .sg) (rename .sg) with
      | .error e => .error e
      | .ok d3 =>
        let d := d1 ++ d2 ++ d3
        if uniqueLen (d.map Prod.fst) then
          if uniqueLen (d.map Prod.snd) then .ok d
          else .error (.assertionError "Values of rename dict must be unique")
        else .error (.assertionError "Codes given must be unique")

/-- All codes in family-dict order (`all_codes`, lines 1209-1225). -/
def allCodes (codes : Fam → List CodeSpec) : List CodeSpec :=
  famOrder.flatMap codes

/-- The code-uniqueness / rename validation of `search_for_codes`: the
duplicate-label check (line 1246, only without collapsing) and the
collapse/rename conflict check (line 1252) from
`_search_for_codes_type_check`, followed by `_create_rename_dict` (line
1522, run only when some rename value is non-`None`).  All of this
precedes any claim-data read. -/
def searchCodesValidate (codes : Fam → List CodeSpec) (collapse : Bool)
    (rename : Fam → RenameVal) : Except SearchErr (List (String × String)) :=
  if ¬collapse ∧ ¬uniqueLen ((allCodes codes).map CodeSpec.patternOf) then
    .error (.valueError "Code patterns given must be unique")
  else if collapse ∧ famOrder.any (fun f => rename f != .rnone) then
    .error (.valueError "rename argument not allowed when collapse_codes is True")
  else if famOrder.all (fun f => rename f == .rnone) then .ok []
  else createRenameDict codes rename

/-! ## Year/identifier reconciliation (`_search_for_codes_data_join`,
lines 1597-1685, and `get_cohort` line 898)

Claim-level frames are indexed by `ehic` for years before 2006 and by
`bene_id` from 2006 on.  The join step concatenates the post-2006 years
under a `'bene_id'` key, merges pre-2006 years with the `ehic → bene_id`
crosswalk when converting, and finishes with
`pd.concat([data.pop('ehic'), data.pop('bene_id')])` — which raises
`KeyError` when no post-2006 year exists, because the `'bene_id'` key was
never created.  `get_cohort` sets `pl.index.name = 'bene_id'`
unconditionally. -/

/-- Patient identifier scheme. -/
inductive IdScheme where
  | beneId
  | ehic
deriving DecidableEq, Repr

/-- Identifier scheme of the index of the combined claim table returned
by `_search_for_codes_data_join`, or the exception it raises. -/
def searchDataJoinIndex (years : List Int) (convertEhic : Bool) :
    Except String IdScheme :=
  let yearsEhic := years.filter (fun y => y < 2006)
  let yearsBene := years.filter (fun y => 2006 ≤ y)
  let hasBene := ¬yearsBene.isEmpty
  if yearsEhic.isEmpty then
    -- `data[dt] = data[dt].pop('bene_id')` (lines 1629-1632)
    if hasBene then .ok .beneId else .error "KeyError"
  else
    -- both eras force `convert_ehic := True` (line 1636); with or without
    -- conversion the function ends in
    -- `pd.concat([pop('ehic'), pop('bene_id')])` (lines 1680-1683), and the
    -- crosswalk merge indexes converted rows by `bene_id`
    let _conv := if hasBene then true else convertEhic
    if hasBene then .ok .beneId else .error "KeyError"

/-- `pl.index.name = 'bene_id'` (line 898): the patient-table index name
after the multi-year merge, set unconditionally. -/
def getCohortIndexName : String := "bene_id"

/-- `static_names` (lines 936-938): per-year duplicates of these columns
are collapsed into a single unsuffixed column, `ehic` among them. -/
def staticNames : List String :=
  ["ehic", "efivepct", "covstart", "bene_dob", "death_dt", "ndi_death_dt",
    "sex", "race", "rti_race_cd"]

/-- A `keep_vars` entry: a literal column name or a compiled pattern
(embedded by its matching function); `_str_in_keep_vars` (lines 617-631)
compares literals by equality and patterns by `search`. -/
inductive KeepVar where
  | kstr (s : String)
  | kpat (f : String → Bool)

/-- `_str_in_keep_vars`. -/
def strInKeepVars (x : String) (keepVars : List KeepVar) : Bool :=
  keepVars.any (fun kv =>
    match kv with
    | .kstr s => x == s
    | .kpat f => f x)

/-- Anchored match of `^{pre}\d{2}$` (the `buyinXX` / `hmoindXX` column
regexes), computed on the character list. -/
def monthColMatch (pre : String) (x : String) : Bool :=
  let cs := x.toList
  let ps := pre.toList
  cs.take ps.length == ps &&
    (cs.drop ps.length).length == 2 && (cs.drop ps.length).all Char.isDigit

/-- Column selection of `_get_cohort_get_vars_toload` (lines 357-398) as
a predicate on an available column name: `ehic` and `bene_id` are always
requested; the filter-specific columns only when the filter is given;
`bene_dob` in age mode; plus the caller's keep-list. -/
def cohortColSelected (P : CohortParams) (yt : YearType) (raceCol : String)
    (keepVars : List KeepVar) (x : String) : Bool :=
  x == "ehic" || x == "bene_id" ||
  (P.gender.isSome && x == "sex") ||
  (P.ages.isSome && x == "age") ||
  (P.races.isSome && x == raceCol) ||
  (P.buyinVal.isSome && monthColMatch "buyin" x) ||
  (P.hmoVal.isSome && monthColMatch "hmoind" x) ||
  (yt == .age && x == "bene_dob") ||
  strInKeepVars x keepVars

/-- Variables loaded for one year of the beneficiary file. -/
def cohortToload (P : CohortParams) (yt : YearType) (raceCol : String)
    (keepVars : List KeepVar) (availCols : List String) : List String :=
  availCols.filter (cohortColSelected P yt raceCol keepVars)

/-! ## Date projection (`_dates_to_year`, lines 1810-1836)

A datetime series is modelled by its month/day pairs (the source year is
irrelevant to the projection).  `pd.to_datetime` on the whole series
raises `ValueError` iff some entry is invalid in the target year; the
`except` branch masks Feb 29 entries to March 1 of the target year and
converts again. -/

/-- Month/day of one datetime entry. -/
structure MonthDay where
  month : Nat
  day : Nat
deriving DecidableEq, Repr

/-- A fully projected date. -/
structure YMD where
  year : Nat
  month : Nat
  day : Nat
deriving DecidableEq, Repr

/-- Gregorian leap year. -/
def isLeapYear (y : Nat) : Bool :=
  (y % 4 == 0 && y % 100 != 0) || y % 400 == 0

/-- Days in a month. -/
def daysInMonth (leap : Bool) (m : Nat) : Nat :=
  if m = 2 then (if leap then 29 else 28)
  else if m = 4 ∨ m = 6 ∨ m = 9 ∨ m = 11 then 30
  else 31

/-- The month/day pair is a valid calendar date under the given leap
status. -/
def validDate (leap : Bool) (md : MonthDay) : Bool :=
  1 ≤ md.month && md.month ≤ 12 && 1 ≤ md.day && md.day ≤ daysInMonth leap md.month

/-- `_dates_to_year`: try the whole-series conversion into `year`; on
`ValueError` mask `(month == 2) & (day == 29)` entries to March 1 and
convert again. -/
def datesToYear (series : List MonthDay) (year : Nat) : List YMD :=
  if series.all (fun md => validDate (isLeapYear year) md) then
    series.map (fun md => ⟨year, md.month, md.day⟩)
  else
    let masked := series.map (fun md =>
      if md.month == 2 && md.day == 29 then (⟨3, 1⟩ : MonthDay) else md)
    masked.map (fun md => ⟨year, md.month, md.day⟩)

/-! ## Claim-table column selection (`_search_for_codes_single_year`,
lines 1883-1952)

For the MedPAR family the code-column regexes are `^dgnscd(\d+)$` and
`^prcdrcd(\d+)$`; `icd9_dx_max_cols` / `icd9_sg_max_cols` replace the
family's column list by the columns whose captured index is at most the
maximum (lines 1940-1944).  `cols_toload` is the union of the resolved
role columns; the claim frame is read with exactly those columns, so a
column outside `cols_toload` appears neither in scanning nor in the
output. -/

/-- `int(cs)` for a nonempty all-digit character list, `none` otherwise
(the capture-and-convert `int(m[1])` step). -/
def digitsToNat (cs : List Char) : Option Nat :=
  if cs ≠ [] ∧ cs.all Char.isDigit then
    some (cs.foldl (fun n c => 10 * n + (c.toNat - 48)) 0)
  else none

/-- Captured index of an anchored numbered column regex
`^{pre}(\d+)$`: the name must start with `pre` and continue with one or
more digits to the end. -/
def numberedIdx (pre : String) (x : String) : Option Nat :=
  if x.toList.take pre.toList.length == pre.toList then
    digitsToNat (x.toList.drop pre.toList.length)
  else none

/-- Family column list under an optional maximum index: without a
maximum all matching columns, otherwise only those with index at most
`maxCols` (lines 1910-1914 and 1940-1944). -/
def colsNumbered (pre : String) (availCols : List String)
    (maxCols : Option Nat) : List String :=
  match maxCols with
  | none => availCols.filter (fun x => (numberedIdx pre x).isSome)
  | some n =>
    availCols.filter (fun x =>
      match numberedIdx pre x with
      | some i => decide (i ≤ n)
      | none => false)

/-- `^medparid$|^clm_id$|^claimindex$` (line 1906). -/
def clIdMatch (x : String) : Bool :=
  x == "medparid" || x == "clm_id" || x == "claimindex"

/-- `cols_toload` for a MedPAR (`med`) search: claim id, patient id
(`ehic` before 2006, `bene_id` from 2006 on), caller keep-list matches,
`hcpcs_cd` when HCPCS codes are searched, the two numbered families when
their codes are searched (with their optional maxima; the type check
rejects a maximum when the family is not searched), and the claim date
column in age mode. -/
def medColsToload (availCols : List String) (year : Int)
    (dxReq sgReq hcReq : Bool) (maxDx maxSg : Option Nat)
    (keepVars : List KeepVar) (ageMode : Bool) : List String :=
  (availCols.filter clIdMatch) ++
  (if year < 2006 then ["ehic"] else ["bene_id"]) ++
  (availCols.filter (fun x => strInKeepVars x keepVars)) ++
  (if hcReq then availCols.filter (fun x => x == "hcpcs_cd") else []) ++
  (if dxReq then colsNumbered "dgnscd" availCols maxDx else []) ++
  (if sgReq then colsNumbered "prcdrcd" availCols maxSg else []) ++
  (if ageMode then ["admsndt"] else [])

/-- The diagnosis columns actually scanned by the matcher for `med`:
exactly the family column list handed to `_search_for_codes_df_inner`. -/
def medDxScanned (availCols : List String) (maxDx : Option Nat) : List String :=
  colsNumbered "dgnscd" availCols maxDx

/-! ### Concrete inputs used by witnesses and counterexamples -/

/-- A patient continuously enrolled (`buyin` is `3` every month), born in
June. -/
def patientEnrolled : Patient :=
  ⟨"F", 70, "1", fun _ => "3", fun _ => "0", 6⟩

/-- A patient whose July `buyin` value is not allowed, born in June. -/
def patientGapJuly : Patient :=
  ⟨"F", 70, "1", fun m => if m == 7 then "0" else "3", fun _ => "0", 6⟩

/-- `get_cohort` parameters restricting only on `buyin_val = ['3']`. -/
def paramsBuyinOnly : CohortParams := ⟨none, none, none, some ["3"], none⟩

/-- `get_cohort` parameters restricting only on `gender='F'` (after
resolution). -/
def paramsGenderF : CohortParams := ⟨some "F", none, none, none, none⟩

/-- A male patient otherwise identical to `patientEnrolled`. -/
def patientMale : Patient :=
  ⟨"M", 70, "1", fun _ => "3", fun _ => "0", 6⟩

/-- Duplicate HCPCS literals (canonical labels collide). -/
def codesDupHcpcs : Fam → List CodeSpec
  | .hcpcs => [.lit "A1234", .lit "A1234"]
  | _ => []

/-- A single HCPCS literal. -/
def codesOneHcpcs : Fam → List CodeSpec
  | .hcpcs => [.lit "A1234"]
  | _ => []

/-- No renaming anywhere. -/
def renameAllNone : Fam → RenameVal := fun _ => .rnone

/-- A string rename for the HCPCS family. -/
def renameHcpcsStr : Fam → RenameVal
  | .hcpcs => .rstr "mycol"
  | _ => .rnone

/-- A dict rename whose key names a code that is not searched. -/
def renameHcpcsAlien : Fam → RenameVal
  | .hcpcs => .rdict [("B9999", "other")]
  | _ => .rnone

/-- MedPAR column list used in the `max_cols` examples. -/
def medAvailCols : List String :=
  ["medparid", "bene_id", "dgnscd1", "dgnscd2", "dgnscd3", "admsndt"]

/-- A keep-list that names the third diagnosis column literally. -/
def keepDgnscd3 : List KeepVar := [.kstr "dgnscd3"]

end MedicareUtils

namespace MedicareUtils

/-! ## Shared helper lemmas -/

lemma foldl_or_eq (l : List α) (g : α → Bool) (b : Bool) :
    l.foldl (fun acc x => acc || g x) b = (b || l.any g) := by
  induction l generalizing b with
  | nil => simp
  | cons x xs ih => simp [List.foldl_cons, ih, Bool.or_assoc]

lemma mem_foldl_inter (l : List (Finset ℕ)) (a : Finset ℕ) (p : ℕ) :
    p ∈ l.foldl (· ∩ ·) a ↔ p ∈ a ∧ ∀ S ∈ l, p ∈ S := by
  induction l generalizing a with
  | nil => simp
  | cons S l ih =>
    simp only [List.foldl_cons, ih, Finset.mem_inter, List.mem_cons]
    constructor
    · rintro ⟨⟨hpa, hpS⟩, hall⟩
      exact ⟨hpa, fun T hT => hT.elim (fun h => h ▸ hpS) (hall T)⟩
    · rintro ⟨hpa, hall⟩
      exact ⟨⟨hpa, hall S (Or.inl rfl)⟩, fun T hT => hall T (Or.inr hT)⟩

lemma mem_foldl_union (l : List (Finset ℕ)) (a : Finset ℕ) (p : ℕ) :
    p ∈ l.foldl (· ∪ ·) a ↔ p ∈ a ∨ ∃ S ∈ l, p ∈ S := by
  induction l generalizing a with
  | nil => simp
  | cons S l ih =>
    simp only [List.foldl_cons, ih, Finset.mem_union, List.mem_cons]
    constructor
    · rintro (⟨hp | hp⟩ | ⟨T, hT, hp⟩)
      · exact Or.inl hp
      · exact Or.inr ⟨S, Or.inl rfl, hp⟩
      · exact Or.inr ⟨T, Or.inr hT, hp⟩
    · rintro (hp | ⟨T, hT | hT, hp⟩)
      · exact Or.inl (Or.inl hp)
      · exact Or.inl (Or.inr (hT ▸ hp))
      · exact Or.inr ⟨T, hT, hp⟩

lemma getLastD_mem {α} (d : α) : ∀ (l : List α), l ≠ [] → l.getLastD d ∈ l
  | [], h => absurd rfl h
  | [a], _ => by simp
  | a :: b :: t, _ => by
    have := getLastD_mem d (b :: t) (by simp)
    simp only [List.getLastD_cons, List.mem_cons] at this ⊢
    exact Or.inr this

/-! ## C10: bool arguments to the constructor -/

/-- C10: constructing a `MedicareDF` with a Python `bool` as `percent`
raises `TypeError('percent must be str or number')` (the exact-type test
`type(percent) in (float, int)` excludes `bool` despite `bool`
subclassing `int`), and a `bool` as `years` raises
`TypeError('years must be a number or list of numbers')`; neither is
coerced to a number. -/
theorem init_bool_args_raise_typeerror :
    (∀ (b : Bool) (years : YearsArg) (yearType : String),
      medicareDFInit (.bool b) years yearType =
        .error (.typeError "percent must be str or number"))
    ∧ (∀ (b : Bool) (yearType : String),
      medicareDFInit (.str "01") (.bool b) yearType =
        .error (.typeError "years must be a number or list of numbers")) := by
  exact ⟨fun _ _ _ => rfl, fun _ _ => rfl⟩

/-! ## C6: age-mode year validation at construction -/

/-- C6: with `year_type='age'`, construction fails with `ValueError`
whenever a single year is given or the year list is not the contiguous
ascending run from its minimum to its maximum, and succeeds for every
list of two or more contiguous years; the validation is pure argument
checking (no data access exists in `__init__`). -/
theorem init_age_mode_year_validation (ys : List Int) :
    (initOk (medicareDFInit (.str "01") (.list ys) "age") = true ↔
      2 ≤ ys.length ∧ ys = intRange (listMin ys) (listMax ys))
    ∧ ((ys.length = 1 ∨ ys ≠ intRange (listMin ys) (listMax ys)) →
      ∃ m, medicareDFInit (.str "01") (.list ys) "age" =
        .error (.valueError m)) := by
  have hred : medicareDFInit (.str "01") (.list ys) "age" =
      medicareDFInit.medicareDFInitAge "01" ys "age" := rfl
  by_cases h1 : ys.length = 1
  · have hval : medicareDFInit.medicareDFInitAge "01" ys "age" =
        .error (.valueError "year_type cannot be age when only one year is given") := by
      unfold medicareDFInit.medicareDFInitAge
      rw [if_pos rfl, if_pos h1]
    rw [hred, hval]
    constructor
    · simp only [initOk, Bool.false_eq_true, false_iff]
      rintro ⟨h2, -⟩
      omega
    · intro _
      exact ⟨_, rfl⟩
  · match ys, h1 with
    | [], _ =>
      have hval : medicareDFInit.medicareDFInitAge "01" [] "age" =
          .error (.valueError "min arg is an empty sequence") := by
        unfold medicareDFInit.medicareDFInitAge
        rw [if_pos rfl, if_neg (by simp)]
      rw [hred, hval]
      constructor
      · simp [initOk]
      · intro _
        exact ⟨_, rfl⟩
    | y :: ys', h1 =>
      have hif : medicareDFInit.medicareDFInitAge "01" (y :: ys') "age" =
          (if y :: ys' = intRange (listMin (y :: ys')) (listMax (y :: ys'))
            then (.ok ⟨"01", y :: ys', "age"⟩ : Except PyErr InitState)
            else .error
              (.valueError "when year_type is age, years provided must be continuous")) := by
        unfold medicareDFInit.medicareDFInitAge
        rw [if_pos rfl, if_neg h1]
      by_cases hc : y :: ys' = intRange (listMin (y :: ys')) (listMax (y :: ys'))
      · rw [hred, hif, if_pos hc]
        constructor
        · simp only [initOk, true_iff]
          refine ⟨?_, hc⟩
          rcases ys' with - | ⟨z, zs⟩
          · exact absurd rfl h1
          · simp
        · rintro (h | h)
          · exact absurd h h1
          · exact absurd hc h
      · rw [hred, hif, if_neg hc]
        constructor
        · simp only [initOk, Bool.false_eq_true, false_iff]
          rintro ⟨-, h⟩
          exact hc h
        · intro _
          exact ⟨_, rfl⟩

/-- Witness for C6: the contiguous pair `[2008, 2009]` constructs
successfully, and the single year `[2008]` fails with a `ValueError`. -/
theorem init_age_mode_year_validation_witness :
    initOk (medicareDFInit (.str "01") (.list [2008, 2009]) "age") = true
    ∧ ∃ m, medicareDFInit (.str "01") (.list [2008]) "age" =
        .error (.valueError m) :=
  ⟨(init_age_mode_year_validation [2008, 2009]).1.mpr (by decide),
    (init_age_mode_year_validation [2008]).2 (Or.inl rfl)⟩

/-! ## C4: projecting dates into a target year -/

lemma validDate_flip {md : MonthDay} (hv : validDate true md = true) {y : Nat}
    (hf : validDate (isLeapYear y) md = false) :
    isLeapYear y = false ∧ md.month = 2 ∧ md.day = 29 := by
  cases hl : isLeapYear y with
  | true => rw [hl] at hf; rw [hv] at hf; exact absurd hf (by simp)
  | false =>
    rw [hl] at hf
    refine ⟨rfl, ?_⟩
    simp only [validDate, Bool.and_eq_true, decide_eq_true_eq] at hv
    obtain ⟨⟨⟨h1, h2⟩, h3⟩, h4⟩ := hv
    by_cases hm : md.month = 2
    · refine ⟨hm, ?_⟩
      by_contra h29
      have hok : validDate false md = true := by
        simp only [validDate, Bool.and_eq_true, decide_eq_true_eq]
        refine ⟨⟨⟨h1, h2⟩, h3⟩, ?_⟩
        have hdm : daysInMonth false md.month = 28 := by simp [daysInMonth, hm]
        have hdm29 : daysInMonth true md.month = 29 := by simp [daysInMonth, hm]
        rw [hdm]
        rw [hdm29] at h4
        omega
      rw [hok] at hf
      exact absurd hf (by simp)
    · have hok : validDate false md = true := by
        simp only [validDate, Bool.and_eq_true, decide_eq_true_eq]
        refine ⟨⟨⟨h1, h2⟩, h3⟩, ?_⟩
        have hd : daysInMonth false md.month = daysInMonth true md.month := by
          simp [daysInMonth, hm]
        rw [hd]
        exact h4
      rw [hok] at hf
      exact absurd hf (by simp)

/-- C4: `_dates_to_year` sends each entry of a datetime series to the
same month and day in the target year, except that February 29 is sent
to March 1 when the target year is not a leap year (and kept as February
29 when it is). -/
theorem dates_to_year_leap_rule (series : List MonthDay) (year : Nat)
    (h : series.all (fun md => validDate true md) = true) :
    datesToYear series year = series.map (fun md =>
      if md.month = 2 ∧ md.day = 29 ∧ isLeapYear year = false
      then ⟨year, 3, 1⟩ else ⟨year, md.month, md.day⟩) := by
  simp only [List.all_eq_true] at h
  unfold datesToYear
  by_cases hall : series.all (fun md => validDate (isLeapYear year) md) = true
  · rw [if_pos hall]
    simp only [List.all_eq_true] at hall
    refine List.map_congr_left (fun md hmd => ?_)
    by_cases hcond : md.month = 2 ∧ md.day = 29 ∧ isLeapYear year = false
    · obtain ⟨h2, h29, hnl⟩ := hcond
      have hvf := hall md hmd
      rw [hnl] at hvf
      exfalso
      simp only [validDate, Bool.and_eq_true, decide_eq_true_eq] at hvf
      obtain ⟨-, h4⟩ := hvf
      have hdm : daysInMonth false md.month = 28 := by simp [daysInMonth, h2]
      rw [hdm] at h4
      omega
    · rw [if_neg hcond]
  · rw [if_neg hall]
    have hnl : isLeapYear year = false := by
      simp only [List.all_eq_true, not_forall] at hall
      obtain ⟨md, hmd, hf⟩ := hall
      have hf : validDate (isLeapYear year) md = false := by
        revert hf
        cases validDate (isLeapYear year) md <;> simp
      exact (validDate_flip (h md hmd) hf).1
    rw [List.map_map]
    refine List.map_congr_left (fun md hmd => ?_)
    simp only [Function.comp_apply]
    by_cases hfeb : md.month = 2 ∧ md.day = 29
    · have hb : (md.month == 2 && md.day == 29) = true := by
        simp [hfeb.1, hfeb.2]
      rw [if_pos hb, if_pos ⟨hfeb.1, hfeb.2, hnl⟩]
    · have hb : (md.month == 2 && md.day == 29) = false := by
        rcases not_and_or.mp hfeb with hm | hd
        · simp [hm]
        · simp [hd]
      rw [if_neg (by rw [hb]; simp), if_neg (by tauto)]

/-- Witness for C4: a series holding February 29 and July 4 projected
into the non-leap year 2011 maps to March 1 and July 4 of 2011. -/
theorem dates_to_year_leap_rule_witness :
    ([⟨2, 29⟩, ⟨7, 4⟩] : List MonthDay).all (fun md => validDate true md) = true
    ∧ datesToYear [⟨2, 29⟩, ⟨7, 4⟩] 2011 = [⟨2011, 3, 1⟩, ⟨2011, 7, 4⟩] := by
  refine ⟨by decide, ?_⟩
  rw [dates_to_year_leap_rule [⟨2, 29⟩, ⟨7, 4⟩] 2011 (by decide)]
  decide

/-! ## C2: drop accounting of the demographic filter -/

lemma extract_calendar_eq (P : CohortParams) (pl : List Patient) (im ix : Bool) :
    extractEachYear .calendar im ix P pl =
      (calStages P).foldl (fun st x => applyStage x.1 x.2 st)
        ⟨pl, (pl.length : ℚ), []⟩ := by
  rcases P with ⟨g, a, r, bv, hv⟩
  rcases g with - | g <;> rcases a with - | as <;> rcases r with - | rs <;>
    by_cases tb : truthy bv = true <;> by_cases th : truthy hv = true <;>
      simp [extractEachYear, calStages, tb, th, List.foldl_append]

lemma foldl_applyStage (stages : List (String × (Patient → Bool))) :
    ∀ (pl : List Patient) (ds : List (String × ℚ)),
      stages.foldl (fun st x => applyStage x.1 x.2 st)
          ⟨pl, (pl.length : ℚ), ds⟩ =
        ⟨runStages stages pl, ((runStages stages pl).length : ℚ),
          ds ++ specDrops stages pl⟩ := by
  induction stages with
  | nil =>
    intro pl ds
    simp [runStages, specDrops]
  | cons s rest ih =>
    intro pl ds
    obtain ⟨n, pr⟩ := s
    rw [List.foldl_cons,
      show applyStage (n, pr).1 (n, pr).2 ⟨pl, (pl.length : ℚ), ds⟩ =
        ⟨pl.filter pr, ((pl.filter pr).length : ℚ),
          ds ++ [(n, 1 - ((pl.filter pr).length : ℚ) / (pl.length : ℚ))]⟩
        from rfl,
      ih]
    simp [runStages, specDrops]

lemma stageCounts_ne_nil (stages : List (String × (Patient → Bool)))
    (pl : List Patient) : stageCounts stages pl ≠ [] := by
  cases stages with
  | nil => simp [stageCounts]
  | cons s rest =>
    obtain ⟨n, pr⟩ := s
    simp [stageCounts]

lemma specDrops_prod (stages : List (String × (Patient → Bool))) :
    ∀ (pl : List Patient),
      (∀ c ∈ (stageCounts stages pl).dropLast, 0 < c) →
      ((runStages stages pl).length : ℚ) =
        (pl.length : ℚ) *
          ((specDrops stages pl).map (fun d => 1 - d.2)).prod := by
  induction stages with
  | nil =>
    intro pl _
    simp [runStages, specDrops]
  | cons s rest ih =>
    intro pl h
    obtain ⟨n, pr⟩ := s
    have hcons : stageCounts ((n, pr) :: rest) pl =
        pl.length :: stageCounts rest (pl.filter pr) := rfl
    have hdrop : (stageCounts ((n, pr) :: rest) pl).dropLast =
        pl.length :: (stageCounts rest (pl.filter pr)).dropLast := by
      rw [hcons, List.dropLast_cons_of_ne_nil (stageCounts_ne_nil rest _)]
    have hpos : 0 < pl.length := by
      apply h
      rw [hdrop]
      exact List.mem_cons_self _ _
    have hrest : ∀ c ∈ (stageCounts rest (pl.filter pr)).dropLast, 0 < c := by
      intro c hc
      apply h
      rw [hdrop]
      exact List.mem_cons_of_mem _ hc
    rw [show runStages ((n, pr) :: rest) pl = runStages rest (pl.filter pr)
        from rfl,
      show specDrops ((n, pr) :: rest) pl =
        (n, 1 - ((pl.filter pr).length : ℚ) / (pl.length : ℚ)) ::
          specDrops rest (pl.filter pr) from rfl,
      List.map_cons, List.prod_cons, ih (pl.filter pr) hrest]
    have hq : (pl.length : ℚ) ≠ 0 := Nat.cast_ne_zero.mpr (by omega)
    field_simp

lemma extract_age_drops (P : CohortParams) (pl : List Patient) (im ix : Bool) :
    (extractEachYear .age im ix P pl).drops = specDrops (demoStages P) pl := by
  rcases P with ⟨g, a, r, bv, hv⟩
  rcases g with - | g <;> rcases a with - | as <;> rcases r with - | rs <;>
    by_cases tb : truthy bv = true <;> by_cases th : truthy hv = true <;>
      simp [extractEachYear, demoStages, tb, th, applyStage, specDrops]

/-- C2 (amended): in calendar mode every applied stage (gender, age,
race, buyin_val, hmo_val) records exactly
`1 - rows_after / rows_before` with the post-previous-stage count as
denominator, and — when every intermediate count is positive, as Python's
division requires — the final row count equals the initial count times
the product of `(1 - drop)` over the recorded stages; in age mode only
the gender/age/race stages record drops, the enrollment-month filters
recording nothing. -/
theorem drop_accounting (P : CohortParams) (pl : List Patient) (im ix : Bool) :
    ((extractEachYear .calendar im ix P pl).drops = specDrops (calStages P) pl
      ∧ (extractEachYear .calendar im ix P pl).pl = runStages (calStages P) pl)
    ∧ ((∀ c ∈ (stageCounts (calStages P) pl).dropLast, 0 < c) →
      (((extractEachYear .calendar im ix P pl).pl.length : ℚ) =
        (pl.length : ℚ) *
          (((extractEachYear .calendar im ix P pl).drops.map
            (fun d => 1 - d.2)).prod)))
    ∧ ((extractEachYear .age im ix P pl).drops = specDrops (demoStages P) pl) := by
  have hcal := extract_calendar_eq P pl im ix
  have hfold := foldl_applyStage (calStages P) pl []
  rw [hcal, hfold]
  refine ⟨⟨by simp, rfl⟩, ?_, extract_age_drops P pl im ix⟩
  intro h
  simpa using specDrops_prod (calStages P) pl h

/-- Counterexample for C2: in age mode with `buyin_val=['3']` the
enrollment-month filter is applied (it drops one of two patients), yet
`nobs_dropped` receives no `buyin_val` entry at all — the drop-fraction
equation has no recorded value to satisfy and the claimed product
identity fails (1 row left versus 2 × empty product = 2). -/
theorem drop_accounting_counterexample :
    (extractEachYear .age true false paramsBuyinOnly
      [patientEnrolled, patientGapJuly]).pl.length = 1
    ∧ (extractEachYear .age true false paramsBuyinOnly
      [patientEnrolled, patientGapJuly]).drops = []
    ∧ ¬(((extractEachYear .age true false paramsBuyinOnly
        [patientEnrolled, patientGapJuly]).pl.length : ℚ) =
      (([patientEnrolled, patientGapJuly] : List Patient).length : ℚ) *
        ((extractEachYear .age true false paramsBuyinOnly
          [patientEnrolled, patientGapJuly]).drops.map
            (fun d => (1 : ℚ) - d.2)).prod) := by
  have hlen : (extractEachYear .age true false paramsBuyinOnly
      [patientEnrolled, patientGapJuly]).pl.length = 1 := by decide
  have hdrops : (extractEachYear .age true false paramsBuyinOnly
      [patientEnrolled, patientGapJuly]).drops = [] := by decide
  refine ⟨hlen, hdrops, ?_⟩
  rw [hlen, hdrops]
  norm_num

/-- Witness for C2: a calendar-mode gender filter over two patients (one
match) records drop 1/2 and satisfies the product identity, all
intermediate counts being positive. -/
theorem drop_accounting_witness :
    (extractEachYear .calendar true false paramsGenderF
      [patientEnrolled, patientMale]).drops.map Prod.fst = ["gender"]
    ∧ (((extractEachYear .calendar true false paramsGenderF
        [patientEnrolled, patientMale]).pl.length : ℚ) =
      (([patientEnrolled, patientMale] : List Patient).length : ℚ) *
        ((extractEachYear .calendar true false paramsGenderF
          [patientEnrolled, patientMale]).drops.map
            (fun d => (1 : ℚ) - d.2)).prod) := by
  constructor
  · rw [(drop_accounting paramsGenderF [patientEnrolled, patientMale]
      true false).1.1]
    decide
  · exact (drop_accounting paramsGenderF [patientEnrolled, patientMale]
      true false).2.1 (by decide)

/-! ## C9: presence of the `cohort_match` column -/

/-- C9: in calendar mode the reshaped patient table has a `cohort_match`
column iff the join is not `inner` (the per-year `match_{year}` indicator
is only created for `outer`/`left`/`right`), and after the pre-reshape
`fillna(False)` the indicator of year `i` is true exactly for the
patients present in year `i`'s extracted frame. -/
theorem cohort_match_column (join : JoinMode) (keepStubs : List String)
    (hm : "match" ∉ keepStubs) (hcm : "cohort_match" ∉ keepStubs) :
    ("cohort_match" ∈ finalLongCols join keepStubs ↔ join ≠ .inner)
    ∧ (∀ (dfs : List (Finset ℕ)) (i p : ℕ),
        filledMatchCell dfs i p = true ↔ p ∈ dfs.getD i ∅) := by
  constructor
  · unfold finalLongCols perYearStubs
    rw [List.map_append]
    constructor
    · intro hmem hj
      rcases List.mem_append.mp hmem with hmem | hmem
      · obtain ⟨c, hc, hceq⟩ := List.mem_map.mp hmem
        by_cases hcmatch : c = "match"
        · exact hm (hcmatch ▸ hc)
        · rw [if_neg hcmatch] at hceq
          exact hcm (hceq ▸ hc)
      · rw [hj] at hmem
        simp at hmem
    · intro hj
      refine List.mem_append.mpr (Or.inr ?_)
      rw [if_neg hj]
      simp
  · intro dfs i p
    simp only [filledMatchCell, mergedMatchCell]
    split <;> simp_all

/-- Witness for C9: with an empty keep-list, an outer join yields a
`cohort_match` column and an inner join does not, and the filled
indicator of year 0 of the frames `{1}`, `{2}` is true for patient 1. -/
theorem cohort_match_column_witness :
    ("cohort_match" ∈ finalLongCols .outer []
      ∧ "cohort_match" ∉ finalLongCols .inner [])
    ∧ filledMatchCell [{1}, {2}] 0 1 = true :=
  ⟨⟨(cohort_match_column .outer [] (by simp) (by simp)).1.mpr (by simp),
    fun hmem => by
      have h := (cohort_match_column .inner [] (by simp) (by simp)).1.mp hmem
      exact h rfl⟩,
    (cohort_match_column .outer [] (by simp) (by simp)).2 [{1}, {2}] 0 1
      |>.mpr (by decide)⟩

/-! ## C1: row set of the multi-year merge -/

/-- C1: for a multi-year calendar-mode extraction, the row set produced
by the source's join sequence equals the row set of the spec's
outer-union-then-filter algorithm for every join mode, and that row set
is: patients present in all years for `inner`, in any year for `outer`,
in the first year for `left`, and in the last year for `right`. -/
theorem year_merge_rowset (dfs : List (Finset ℕ)) (join : JoinMode)
    (h2 : 2 ≤ dfs.length) (p : ℕ) :
    (p ∈ sourceMergeCalendar dfs join ↔ p ∈ specMergeCalendar dfs join)
    ∧ (p ∈ sourceMergeCalendar dfs .inner ↔ ∀ S ∈ dfs, p ∈ S)
    ∧ (p ∈ sourceMergeCalendar dfs .outer ↔ ∃ S ∈ dfs, p ∈ S)
    ∧ (p ∈ sourceMergeCalendar dfs .left ↔ p ∈ dfs.headD ∅)
    ∧ (p ∈ sourceMergeCalendar dfs .right ↔ p ∈ dfs.getLastD ∅) := by
  obtain ⟨d, rest, rfl⟩ : ∃ d rest, dfs = d :: rest := by
    cases dfs with
    | nil => simp at h2
    | cons d rest => exact ⟨d, rest, rfl⟩
  have hdmem : d ∈ d :: rest := List.mem_cons_self d rest
  have hunion : ∀ q : ℕ, q ∈ unionAll (d :: rest) ↔ ∃ S ∈ d :: rest, q ∈ S := by
    intro q
    unfold unionAll
    rw [mem_foldl_union]
    simp
  have hsrcInner : p ∈ sourceMergeCalendar (d :: rest) .inner ↔
      ∀ S ∈ d :: rest, p ∈ S := by
    show p ∈ pandasJoinIndex d rest .inner ↔ _
    unfold pandasJoinIndex
    rw [mem_foldl_inter]
    constructor
    · rintro ⟨hd, hr⟩ S hS
      rcases List.mem_cons.mp hS with rfl | hS
      · exact hd
      · exact hr S hS
    · intro hall
      exact ⟨hall d hdmem, fun S hS => hall S (List.mem_cons_of_mem d hS)⟩
  have hsrcOuter : p ∈ sourceMergeCalendar (d :: rest) .outer ↔
      ∃ S ∈ d :: rest, p ∈ S := by
    show p ∈ pandasJoinIndex d rest .outer ↔ _
    unfold pandasJoinIndex
    rw [mem_foldl_union]
    constructor
    · rintro (hd | ⟨S, hS, hpS⟩)
      · exact ⟨d, hdmem, hd⟩
      · exact ⟨S, List.mem_cons_of_mem d hS, hpS⟩
    · rintro ⟨S, hS, hpS⟩
      rcases List.mem_cons.mp hS with rfl | hS
      · exact Or.inl hpS
      · exact Or.inr ⟨S, hS, hpS⟩
  have hsrcLeft : p ∈ sourceMergeCalendar (d :: rest) .left ↔
      p ∈ (d :: rest).headD ∅ := Iff.rfl
  have hsrcRight : p ∈ sourceMergeCalendar (d :: rest) .right ↔
      p ∈ (d :: rest).getLastD ∅ := Iff.rfl
  have hspecInner : p ∈ specMergeCalendar (d :: rest) .inner ↔
      ∀ S ∈ d :: rest, p ∈ S := by
    unfold specMergeCalendar joinRowKeep
    rw [Finset.mem_filter]
    simp only [List.all_eq_true, decide_eq_true_eq]
    constructor
    · rintro ⟨-, h⟩
      exact h
    · intro h
      exact ⟨(hunion p).mpr ⟨d, hdmem, h d hdmem⟩, h⟩
  have hspecOuter : p ∈ specMergeCalendar (d :: rest) .outer ↔
      ∃ S ∈ d :: rest, p ∈ S := by
    unfold specMergeCalendar joinRowKeep
    rw [Finset.mem_filter]
    simp only [List.any_eq_true, decide_eq_true_eq]
    constructor
    · rintro ⟨-, h⟩
      exact h
    · intro h
      exact ⟨(hunion p).mpr h, h⟩
  have hspecLeft : p ∈ specMergeCalendar (d :: rest) .left ↔
      p ∈ (d :: rest).headD ∅ := by
    unfold specMergeCalendar joinRowKeep
    rw [Finset.mem_filter]
    simp only [decide_eq_true_eq, List.headD_cons]
    constructor
    · rintro ⟨-, h⟩
      exact h
    · intro h
      exact ⟨(hunion p).mpr ⟨d, hdmem, h⟩, h⟩
  have hspecRight : p ∈ specMergeCalendar (d :: rest) .right ↔
      p ∈ (d :: rest).getLastD ∅ := by
    unfold specMergeCalendar joinRowKeep
    rw [Finset.mem_filter]
    simp only [decide_eq_true_eq]
    constructor
    · rintro ⟨-, h⟩
      exact h
    · intro h
      exact ⟨(hunion p).mpr
        ⟨(d :: rest).getLastD ∅, getLastD_mem ∅ _ (by simp), h⟩, h⟩
  refine ⟨?_, hsrcInner, hsrcOuter, hsrcLeft, hsrcRight⟩
  cases join with
  | inner => exact hsrcInner.trans hspecInner.symm
  | outer => exact hsrcOuter.trans hspecOuter.symm
  | left => exact hsrcLeft.trans hspecLeft.symm
  | right => exact hsrcRight.trans hspecRight.symm

/-- Witness for C1: on the concrete two-year frames `{1, 2}` and
`{2, 3}`, patient 2 is in the inner-merge row set and patient 1 is not in
the right-merge row set. -/
theorem year_merge_rowset_witness :
    ((2 : ℕ) ∈ sourceMergeCalendar [{1, 2}, {2, 3}] .inner ↔
      ∀ S ∈ [({1, 2} : Finset ℕ), {2, 3}], 2 ∈ S)
    ∧ ((1 : ℕ) ∈ sourceMergeCalendar [{1, 2}, {2, 3}] .right ↔
      1 ∈ ([({1, 2} : Finset ℕ), {2, 3}]).getLastD ∅) :=
  ⟨(year_merge_rowset [{1, 2}, {2, 3}] .inner (by decide) 2).2.1,
    (year_merge_rowset [{1, 2}, {2, 3}] .right (by decide) 1).2.2.2.2⟩

/-! ## C3: identifier scheme of the output index -/

/-- C3 (amended): `get_cohort` always names its output index `bene_id`
and always loads `ehic` (collapsed to a single static column) whenever
the year's file carries it; a `search_for_codes` claim table is indexed
by `bene_id` whenever at least one post-2006 year is requested (both-era
requests force the crosswalk conversion); a search over only pre-2006
years raises `KeyError` in the final concatenation instead of producing
an `ehic`-indexed table. -/
theorem identifier_scheme_uniform :
    getCohortIndexName = "bene_id"
    ∧ "ehic" ∈ staticNames
    ∧ (∀ (P : CohortParams) (yt : YearType) (raceCol : String)
        (keepVars : List KeepVar) (availCols : List String),
        "ehic" ∈ availCols →
        "ehic" ∈ cohortToload P yt raceCol keepVars availCols)
    ∧ (∀ (years : List Int) (c : Bool),
        years.any (fun y => decide (2006 ≤ y)) = true →
        searchDataJoinIndex years c = .ok .beneId)
    ∧ (∀ (years : List Int) (c : Bool),
        years.all (fun y => decide (y < 2006)) = true →
        searchDataJoinIndex years c = .error "KeyError") := by
  refine ⟨rfl, by decide, ?_, ?_, ?_⟩
  · intro P yt raceCol keepVars availCols h
    exact List.mem_filter.mpr ⟨h, by simp [cohortColSelected]⟩
  · intro years c h
    obtain ⟨y, hy, hy6⟩ := List.any_eq_true.mp h
    rw [decide_eq_true_eq] at hy6
    have hne : years.filter (fun y => decide ((2006 : Int) ≤ y)) ≠ [] :=
      List.ne_nil_of_mem (List.mem_filter.mpr ⟨hy, by simpa using hy6⟩)
    have hbe : (years.filter (fun y => decide ((2006 : Int) ≤ y))).isEmpty
        = false := by
      simpa [List.isEmpty_iff] using hne
    by_cases he : (years.filter (fun y => decide (y < (2006 : Int)))).isEmpty
      <;> simp [searchDataJoinIndex, he, hbe]
  · intro years c h
    have hb : (years.filter (fun y => decide ((2006 : Int) ≤ y))).isEmpty
        = true := by
      rw [List.isEmpty_iff, List.filter_eq_nil_iff]
      intro y hy
      have h6 := List.all_eq_true.mp h y hy
      simp only [decide_eq_true_eq] at h6 ⊢
      omega
    by_cases he : (years.filter (fun y => decide (y < (2006 : Int)))).isEmpty
      <;> simp [searchDataJoinIndex, he, hb]

/-- Counterexample for C3: a search over the single pre-2006 year 2004
(with `convert_ehic=False`, the case the docstring says should leave
`ehic` as identifier) raises `KeyError` — no table with a `bene_id`
index is produced, refuting the claim that the output index is always
`bene_id`. -/
theorem identifier_scheme_counterexample :
    searchDataJoinIndex [2004] false = .error "KeyError"
    ∧ searchDataJoinIndex [2004] false ≠ .ok .beneId := by
  have h : searchDataJoinIndex [2004] false = .error "KeyError" := rfl
  refine ⟨h, ?_⟩
  intro hok
  rw [h] at hok
  exact Except.noConfusion hok

/-- Witness for C3: a both-era request `[2004, 2008]` yields a `bene_id`
index, and `ehic` is loaded whenever the beneficiary file carries it. -/
theorem identifier_scheme_witness :
    searchDataJoinIndex [2004, 2008] false = .ok .beneId
    ∧ "ehic" ∈ cohortToload paramsGenderF .calendar "race" []
        ["ehic", "bene_id"] :=
  ⟨identifier_scheme_uniform.2.2.2.1 [2004, 2008] false (by decide),
    identifier_scheme_uniform.2.2.1 paramsGenderF .calendar "race" []
      ["ehic", "bene_id"] (by decide)⟩

/-! ## C7: fail-fast validation of `search_for_codes` -/

lemma createRenameDict_err_of_fam (codes : Fam → List CodeSpec)
    (rename : Fam → RenameVal) (f : Fam) (e : SearchErr)
    (h : createRenameDictEach (codes f) (rename f) = .error e) :
    ∃ e2, createRenameDict codes rename = .error e2 := by
  cases f with
  | hcpcs =>
    exact ⟨e, by simp [createRenameDict, h]⟩
  | dx =>
    cases h1 : createRenameDictEach (codes .hcpcs) (rename .hcpcs) with
    | error e1 => exact ⟨e1, by simp [createRenameDict, h1]⟩
    | ok d1 => exact ⟨e, by simp [createRenameDict, h1, h]⟩
  | sg =>
    cases h1 : createRenameDictEach (codes .hcpcs) (rename .hcpcs) with
    | error e1 => exact ⟨e1, by simp [createRenameDict, h1]⟩
    | ok d1 =>
      cases h2 : createRenameDictEach (codes .dx) (rename .dx) with
      | error e2 => exact ⟨e2, by simp [createRenameDict, h1, h2]⟩
      | ok d2 => exact ⟨e, by simp [createRenameDict, h1, h2, h]⟩

/-- C7: the `search_for_codes` validation fails before any claim data is
read: with `collapse_codes=False`, duplicate canonical code labels raise
`ValueError('Code patterns given must be unique')`; with
`collapse_codes=True`, any non-`None` rename value raises
`ValueError('rename argument not allowed when collapse_codes is True')`;
and a rename dict referencing a code absent from its family's search set
always fails validation with some error. -/
theorem search_codes_fail_fast :
    (∀ (codes : Fam → List CodeSpec) (rename : Fam → RenameVal),
      uniqueLen ((allCodes codes).map CodeSpec.patternOf) = false →
      searchCodesValidate codes false rename =
        .error (.valueError "Code patterns given must be unique"))
    ∧ (∀ (codes : Fam → List CodeSpec) (rename : Fam → RenameVal) (f : Fam),
      rename f ≠ .rnone →
      searchCodesValidate codes true rename =
        .error
          (.valueError "rename argument not allowed when collapse_codes is True"))
    ∧ (∀ (codes : Fam → List CodeSpec) (collapse : Bool)
        (rename : Fam → RenameVal) (f : Fam) (d : List (String × String)),
      rename f = .rdict d →
      ((d.map Prod.fst).all
        (fun k => ((codes f).map CodeSpec.patternOf).contains k)) = false →
      ∃ e, searchCodesValidate codes collapse rename = .error e) := by
  refine ⟨?_, ?_, ?_⟩
  · intro codes rename h
    simp [searchCodesValidate, h]
  · intro codes rename f hf
    have hany : famOrder.any (fun g => rename g != RenameVal.rnone) = true := by
      apply List.any_eq_true.mpr
      refine ⟨f, ?_, ?_⟩
      · cases f <;> simp [famOrder]
      · simpa using hf
    simp [searchCodesValidate, hany]
  · intro codes collapse rename f d hfd hsub
    have heach : createRenameDictEach (codes f) (rename f) =
        .error (.assertionError
          "Keys of the inner rename dict need to be a subset of the codes provided to search through") := by
      rw [hfd]
      simp only [createRenameDictEach]
      rw [if_neg (by rw [hsub]; exact Bool.false_ne_true)]
    have hdne : d ≠ [] := by
      intro hnil
      rw [hnil] at hsub
      simp at hsub
    by_cases h1 : (¬collapse = true ∧
        ¬uniqueLen ((allCodes codes).map CodeSpec.patternOf) = true)
    · exact ⟨_, by rw [searchCodesValidate, if_pos h1]⟩
    · by_cases h2 : (collapse = true ∧
          famOrder.any (fun g => rename g != RenameVal.rnone) = true)
      · exact ⟨_, by rw [searchCodesValidate, if_neg h1, if_pos h2]⟩
      · have hall : famOrder.all (fun g => rename g == RenameVal.rnone) = false := by
          apply List.all_eq_false.mpr
          refine ⟨f, ?_, ?_⟩
          · cases f <;> simp [famOrder]
          · rw [hfd]
            simp
        obtain ⟨e2, he2⟩ := createRenameDict_err_of_fam codes rename f _ heach
        exact ⟨e2, by rw [searchCodesValidate, if_neg h1, if_neg h2,
          if_neg (by simp [hall]), he2]⟩

/-- Witness for C7: duplicate literals `A1234, A1234` without collapsing
fail with the uniqueness `ValueError`; a string rename under
`collapse_codes=True` fails with the conflict `ValueError`; and a rename
dict keyed by the unsearched code `B9999` fails validation. -/
theorem search_codes_fail_fast_witness :
    searchCodesValidate codesDupHcpcs false renameAllNone =
      .error (.valueError "Code patterns given must be unique")
    ∧ searchCodesValidate codesOneHcpcs true renameHcpcsStr =
      .error
        (.valueError "rename argument not allowed when collapse_codes is True")
    ∧ ∃ e, searchCodesValidate codesOneHcpcs false renameHcpcsAlien =
        .error e :=
  ⟨search_codes_fail_fast.1 codesDupHcpcs renameAllNone (by decide),
    search_codes_fail_fast.2.1 codesOneHcpcs renameHcpcsStr .hcpcs (by decide),
    search_codes_fail_fast.2.2 codesOneHcpcs false renameHcpcsAlien .hcpcs
      [("B9999", "other")] rfl (by decide)⟩

/-! ## C8: the `max_cols` column restriction -/

lemma mem_colsNumbered_isSome (pre : String) (availCols : List String)
    (mc : Option Nat) (x : String) (hx : x ∈ colsNumbered pre availCols mc) :
    (numberedIdx pre x).isSome = true := by
  cases mc with
  | none =>
    simp only [colsNumbered] at hx
    exact (List.mem_filter.mp hx).2
  | some n =>
    simp only [colsNumbered] at hx
    have h2 := (List.mem_filter.mp hx).2
    cases hi : numberedIdx pre x with
    | none => rw [hi] at h2; exact Bool.noConfusion h2
    | some i => simp

/-- C8 (amended): with a configured maximum index `N` for a numbered
code-column family, the scanned family columns all have index at most
`N`; a family column whose index exceeds `N` is loaded (and hence can
appear in the output) only if another role requests it — in particular
the caller's keep-list; absent any such other-role match it is excluded
from `cols_toload` entirely.  Stated for the MedPAR diagnosis and
procedure families. -/
theorem max_cols_restriction :
    (∀ (pre : String) (availCols : List String) (n : Nat) (x : String),
      x ∈ colsNumbered pre availCols (some n) →
      ∃ i, numberedIdx pre x = some i ∧ i ≤ n)
    ∧ (∀ (availCols : List String) (year : Int) (sgReq hcReq : Bool)
        (maxSg : Option Nat) (keepVars : List KeepVar) (ageMode : Bool)
        (n i : Nat) (x : String),
      numberedIdx "dgnscd" x = some i → n < i →
      strInKeepVars x keepVars = false → clIdMatch x = false →
      x ≠ "hcpcs_cd" → numberedIdx "prcdrcd" x = none →
      x ≠ "ehic" → x ≠ "bene_id" → x ≠ "admsndt" →
      x ∉ medColsToload availCols year true sgReq hcReq (some n) maxSg
        keepVars ageMode)
    ∧ (∀ (availCols : List String) (year : Int) (dxReq hcReq : Bool)
        (maxDx : Option Nat) (keepVars : List KeepVar) (ageMode : Bool)
        (n i : Nat) (x : String),
      numberedIdx "prcdrcd" x = some i → n < i →
      strInKeepVars x keepVars = false → clIdMatch x = false →
      x ≠ "hcpcs_cd" → numberedIdx "dgnscd" x = none →
      x ≠ "ehic" → x ≠ "bene_id" → x ≠ "admsndt" →
      x ∉ medColsToload availCols year dxReq true hcReq maxDx (some n)
        keepVars ageMode) := by
  have hscan : ∀ (pre : String) (availCols : List String) (n : Nat)
      (x : String), x ∈ colsNumbered pre availCols (some n) →
      ∃ i, numberedIdx pre x = some i ∧ i ≤ n := by
    intro pre availCols n x hx
    simp only [colsNumbered] at hx
    have h2 := (List.mem_filter.mp hx).2
    cases hi : numberedIdx pre x with
    | none => rw [hi] at h2; exact Bool.noConfusion h2
    | some j =>
      rw [hi] at h2
      simp only [decide_eq_true_eq] at h2
      exact ⟨j, rfl, h2⟩
  refine ⟨hscan, ?_, ?_⟩
  · intro availCols year sgReq hcReq maxSg keepVars ageMode n i x
      hdx hni hkeep hcl hhc hsgn hehic hbene hadm hmem
    simp only [medColsToload, List.mem_append] at hmem
    rcases hmem with ((((((h1 | h2) | h3) | h4) | h5) | h6) | h7)
    · rw [(List.mem_filter.mp h1).2] at hcl
      exact Bool.noConfusion hcl
    · revert h2
      by_cases hy : year < (2006 : Int) <;> simp [hy, hehic, hbene]
    · rw [(List.mem_filter.mp h3).2] at hkeep
      exact Bool.noConfusion hkeep
    · revert h4
      cases hcReq with
      | false => simp
      | true =>
        intro h4
        have := (List.mem_filter.mp h4).2
        simp only [beq_iff_eq] at this
        exact hhc this
    · simp only [if_true] at h5
      obtain ⟨j, hj, hjn⟩ := hscan "dgnscd" availCols n x h5
      rw [hdx] at hj
      injection hj with hj
      omega
    · revert h6
      cases sgReq with
      | false => simp
      | true =>
        intro h6
        rw [if_pos rfl] at h6
        have := mem_colsNumbered_isSome "prcdrcd" availCols maxSg x h6
        rw [hsgn] at this
        exact Bool.noConfusion this
    · revert h7
      cases ageMode with
      | false => simp
      | true => simp [hadm]
  · intro availCols year dxReq hcReq maxDx keepVars ageMode n i x
      hsg hni hkeep hcl hhc hdxn hehic hbene hadm hmem
    simp only [medColsToload, List.mem_append] at hmem
    rcases hmem with ((((((h1 | h2) | h3) | h4) | h5) | h6) | h7)
    · rw [(List.mem_filter.mp h1).2] at hcl
      exact Bool.noConfusion hcl
    · revert h2
      by_cases hy : year < (2006 : Int) <;> simp [hy, hehic, hbene]
    · rw [(List.mem_filter.mp h3).2] at hkeep
      exact Bool.noConfusion hkeep
    · revert h4
      cases hcReq with
      | false => simp
      | true =>
        intro h4
        have := (List.mem_filter.mp h4).2
        simp only [beq_iff_eq] at this
        exact hhc this
    · revert h5
      cases dxReq with
      | false => simp
      | true =>
        intro h5
        rw [if_pos rfl] at h5
        have := mem_colsNumbered_isSome "dgnscd" availCols maxDx x h5
        rw [hdxn] at this
        exact Bool.noConfusion this
    · simp only [if_true] at h6
      obtain ⟨j, hj, hjn⟩ := hscan "prcdrcd" availCols n x h6
      rw [hsg] at hj
      injection hj with hj
      omega
    · revert h7
      cases ageMode with
      | false => simp
      | true => simp [hadm]

/-- Counterexample for C8: with `icd9_dx_max_cols=2`, the column
`dgnscd3` (index 3 > 2) is nevertheless loaded when the caller's
keep-list names it — it is not excluded from the load set, contradicting
the claimed unconditional exclusion. -/
theorem max_cols_restriction_counterexample :
    "dgnscd3" ∈ medColsToload medAvailCols 2008 true false false (some 2)
      none keepDgnscd3 false
    ∧ numberedIdx "dgnscd" "dgnscd3" = some 3 ∧ 2 < 3 := by
  refine ⟨?_, by decide, by decide⟩
  simp only [medColsToload, List.mem_append]
  refine Or.inl (Or.inl (Or.inl (Or.inl (Or.inr ?_))))
  decide

/-- Witness for C8: with an empty keep-list, `dgnscd3` is excluded from
the load set when `icd9_dx_max_cols=2`. -/
theorem max_cols_restriction_witness :
    "dgnscd3" ∉ medColsToload medAvailCols 2008 true false false (some 2)
      none [] false :=
  max_cols_restriction.2.1 medAvailCols 2008 false false none [] false 2 3
    "dgnscd3" (by decide) (by decide) (by decide) (by decide) (by decide)
    (by decide) (by decide) (by decide) (by decide)

/-! ## C5: the collapse-codes invariant -/

/-- C5: on identical inputs (same codes, resolved columns and row), the
`match` value computed by the `collapse_codes=True` path equals the OR of
the per-code boolean columns created by the `collapse_codes=False` path. -/
theorem collapse_codes_invariant (inp : MatchInput) :
    matchCollapse inp = matchNonCollapse inp := by
  unfold matchCollapse matchNonCollapse createdCodeCols
  suffices h : ∀ (fams : List Fam) (b : Bool),
      fams.foldl (fun b f =>
        if inp.cols f = [] then b
        else (inp.codes f).foldl (fun b c => b || rowCodeMatch inp f c) b) b =
      (b || (fams.flatMap (fun f =>
        if inp.cols f = [] then []
        else (inp.codes f).map (fun c => rowCodeMatch inp f c))).any id) by
    rw [h famOrder false]
    simp
  intro fams
  induction fams with
  | nil => simp
  | cons f fs ih =>
    intro b
    by_cases hc : inp.cols f = []
    · simp [hc, ih]
    · rw [List.foldl_cons, List.flatMap_cons, if_neg hc, ih, foldl_or_eq]
      simp only [hc, List.any_append, if_false, Bool.or_assoc]
      have hmap : ∀ (cs : List CodeSpec),
          (List.map (fun c => rowCodeMatch inp f c) cs).any id
            = cs.any (rowCodeMatch inp f) := by
        intro cs
        induction cs with
        | nil => rfl
        | cons c ct ih => simp [List.any_cons, ih]
      rw [hmap]

end MedicareUtils
